import Mathlib

/-!
Verification of the MELSEC MC protocol client core (melsec_mc_mock).

This file shallowly embeds the pure parts of the Rust sources
(`mc_frame.rs`, `request.rs`, `device.rs`, `mc_client.rs`,
`command_registry.rs`) as executable Lean definitions, and proves or
refutes the frozen specification claims about them.

Bytes are modelled as `Nat` (with explicit `% 256` / `% 65536` where the
Rust code relies on machine-integer width), byte sequences as `List Nat`,
strings as `List Char`, and fallible functions as `Except String`.
-/

namespace Melsec

/-! ## Byte helpers -/

/-- Little-endian encoding of a `u16` value: `u16::to_le_bytes`. -/
def le16 (v : Nat) : List Nat := [v % 256, v / 256 % 256]

/-- Big-endian encoding of a `u16` value: `u16::to_be_bytes`. -/
def be16 (v : Nat) : List Nat := [v / 256 % 256, v % 256]

/-- Whether an `Except` result is an error. -/
def isErr {ε α : Type} : Except ε α → Bool
  | .error _ => true
  | .ok _ => false

/-! ## Frame codec (`mc_frame.rs`, `mc_define.rs`) -/

/-- First byte of `MC_SUBHEADER_REQUEST` (`[0x54, 0x00]`). -/
def MC_SUBHEADER_REQUEST_0 : Nat := 0x54

/-- First byte of `MC_SUBHEADER_RESPONSE` (`[0xD4, 0x00]`). -/
def MC_SUBHEADER_RESPONSE_0 : Nat := 0xD4

/-- Access route, from `mc_define.rs` (`AccessRoute`). -/
structure AccessRoute where
  network_number : Nat
  pc_number : Nat
  io_number : Nat
  station_number : Nat
deriving DecidableEq, Repr

/-- `AccessRoute::to_bytes`: 5 bytes, io_number little-endian in the middle. -/
def AccessRoute.to_bytes (a : AccessRoute) : List Nat :=
  [a.network_number % 256, a.pc_number % 256,
   a.io_number % 256, a.io_number / 256 % 256, a.station_number % 256]

/-- `AccessRoute::default()`: network 0x00, pc 0xFF, io 0x03FF, station 0x00. -/
def AccessRoute.default : AccessRoute :=
  { network_number := 0x00, pc_number := 0xFF, io_number := 0x03FF, station_number := 0x00 }

/-- Frame dialect selection, from `mc_define.rs` (`McFrameFormat`). -/
inductive McFrameFormat where
  | MC4E
  | MC3E
deriving DecidableEq, Repr

/-- Request structure, from `request.rs` (`McRequest`). -/
structure McRequest where
  subheader : List Nat
  access_route : AccessRoute
  request_data_len : Nat
  monitoring_timer : Nat
  request_data : List Nat
  serial_number : Nat
deriving DecidableEq, Repr

/-- `McRequest::new()` with the serial number made explicit (the Rust code
draws it from the global counter modelled separately below). -/
def McRequest.new (serial : Nat) : McRequest :=
  { subheader := [0x54, 0x00]
    access_route := AccessRoute.default
    request_data_len := 0
    monitoring_timer := 0x1000
    request_data := []
    serial_number := serial }

/-- `McRequest::with_access_route`. -/
def McRequest.with_access_route (r : McRequest) (route : AccessRoute) : McRequest :=
  { r with access_route := route }

/-- `McRequest::with_monitoring_timer`. -/
def McRequest.with_monitoring_timer (r : McRequest) (t : Nat) : McRequest :=
  { r with monitoring_timer := t }

/-- `McRequest::try_with_request_data`: sets the data and the length field
(data length + 2); fails when `data.len() + 2` does not fit in a `u16`. -/
def McRequest.try_with_request_data (r : McRequest) (data : List Nat) :
    Except String McRequest :=
  let total_len := data.length + 2
  if total_len ≤ 0xFFFF then
    .ok { r with request_data_len := total_len, request_data := data }
  else
    .error "request_data too large to fit into u16"

/-- `McRequest::build_with_format` (`build_mc_payload_with_format`):
MC4E is subheader, serial (LE), reserved, route, length (LE), timer (BE), body;
MC3E is subheader, route, length (LE), timer (LE), body. -/
def McRequest.build_with_format (r : McRequest) (format : McFrameFormat) : List Nat :=
  match format with
  | .MC4E =>
      r.subheader ++ le16 r.serial_number ++ le16 0x0000 ++
        r.access_route.to_bytes ++ le16 r.request_data_len ++
        be16 r.monitoring_timer ++ r.request_data
  | .MC3E =>
      r.subheader ++ r.access_route.to_bytes ++ le16 r.request_data_len ++
        le16 r.monitoring_timer ++ r.request_data

/-- Convenience constructor for a fully-specified request, the result of
the `McRequest` builder chain (`new`, `with_access_route`,
`with_monitoring_timer`, `try_with_request_data`). -/
def mkRequest (serial timer : Nat) (route : AccessRoute) (body : List Nat)
    (len : Nat) : McRequest :=
  { subheader := [0x54, 0x00], access_route := route,
    request_data_len := len, monitoring_timer := timer,
    request_data := body, serial_number := serial }

/-- `detect_frame` from `mc_frame.rs`: given a possibly partial buffer,
return `some (frame_len, header_len, serial?)` when a header can be
identified, `none` when more bytes are needed, or an error on a malformed
MC4E header. -/
def detect_frame (buf : List Nat) :
    Except String (Option (Nat × Nat × Option Nat)) :=
  if buf.length < 2 then .ok none
  else if 15 ≤ buf.length ∧
      (buf.getD 0 0 = MC_SUBHEADER_REQUEST_0 ∨ buf.getD 0 0 = MC_SUBHEADER_RESPONSE_0) then
    let data_len := buf.getD 11 0 + 256 * buf.getD 12 0
    if data_len < 2 then .error "MC4E invalid data_len (must be >=2)"
    else
      let serial := if 4 ≤ buf.length then some (buf.getD 2 0 + 256 * buf.getD 3 0) else none
      .ok (some (15 + (data_len - 2), 15, serial))
  else if 11 ≤ buf.length ∧ 2 ≤ buf.getD 7 0 + 256 * buf.getD 8 0 then
    .ok (some (11 + (buf.getD 7 0 + 256 * buf.getD 8 0 - 2), 11, none))
  else if 9 ≤ buf.length ∧ 2 ≤ buf.getD 5 0 + 256 * buf.getD 6 0 then
    .ok (some (9 + (buf.getD 5 0 + 256 * buf.getD 6 0 - 2), 9, none))
  else .ok none

/-! ## Serial counter (`request.rs`, `next_serial`) -/

/-- One step of the process-wide serial counter: wraps from 0xFFFF to 1,
otherwise increments (with `u16` wrapping, which can only matter at 0xFFFF,
already handled). `next_serial` returns the post-increment value. -/
def serial_step (v : Nat) : Nat :=
  if v = 0xFFFF then 1 else (v + 1) % 65536

/-- Counter state after `n` draws; the counter starts at 1. -/
def serial_state : Nat → Nat
  | 0 => 1
  | n + 1 => serial_step (serial_state n)

/-- Value returned by the `(n+1)`-th call to `next_serial` (0-indexed `n`):
the counter value after that draw. -/
def serial_draw (n : Nat) : Nat := serial_state (n + 1)

/-! ## Echo validation (`mc_client.rs`, `McClient::echo`) -/

/-- Predicate used by both `echo` and the ascii-hex codec paths:
byte is one of `0-9`, `A-F`, `a-f`. -/
def is_ascii_hex_byte (b : Nat) : Bool :=
  (0x30 ≤ b ∧ b ≤ 0x39) ∨ (0x41 ≤ b ∧ b ≤ 0x46) ∨ (0x61 ≤ b ∧ b ≤ 0x66)

/-- The validation prefix of `McClient::echo`: payload length must be in
`[1, 960]` and every byte must be an ASCII hex character. This runs before
any request is assembled or any transport is touched. -/
def echo_validate (payload : List Nat) : Except String Unit :=
  if ¬ (1 ≤ payload.length ∧ payload.length ≤ 960) then
    .error "echo payload length out of range"
  else if ¬ (payload.all is_ascii_hex_byte) then
    .error "echo payload contains invalid characters"
  else .ok ()

/-- The pure prefix of `McClient::echo`: after validation, the request data
is command 0x0619 (LE), subcommand 0x0000 (LE), then the payload bytes.
Transport activity happens only after this returns `.ok`. -/
def echo_build (payload : List Nat) : Except String (List Nat) :=
  match echo_validate payload with
  | .error e => .error e
  | .ok _ => .ok (le16 0x0619 ++ le16 0x0000 ++ payload)

/-! ## Device model (`device.rs`) -/

/-- Device category, from `device.rs` (`DeviceType`). -/
inductive DeviceType where
  | Bit
  | Word
  | DoubleWord
deriving DecidableEq, Repr

/-- Address radix, from `device.rs` (`NumberBase`). -/
inductive NumberBase where
  | Decimal
  | Hexadecimal
deriving DecidableEq, Repr

/-- PLC series, from `plc_series.rs`. -/
inductive PLCSeries where
  | Q
  | R
deriving DecidableEq, Repr

/-- Device record, from `device.rs` (`Device`); the symbol is the string
form of its `DeviceCode`, the numeric code a `u8`. -/
structure Device where
  symbol : List Char
  category : DeviceType
  base : NumberBase
  device_code : Nat
  supported_series : List PLCSeries
deriving DecidableEq, Repr

/-- Lookup by symbol (`device_by_symbol`); the Rust hash maps are built from
a catalog whose symbols and codes are unique, so first-match lookup on the
catalog list is equivalent. -/
def device_by_symbol (cat : List Device) (sym : List Char) : Option Device :=
  cat.find? (fun d => d.symbol = sym)

/-- Lookup by numeric code (`device_by_code`). -/
def device_by_code (cat : List Device) (code : Nat) : Option Device :=
  cat.find? (fun d => d.device_code = code)

/-- ASCII whitespace test; `str::trim` on the ASCII strings this code
handles removes exactly these characters (space, tab, newline, carriage
return). -/
def is_ws (c : Char) : Bool :=
  c.toNat = 32 ∨ c.toNat = 9 ∨ c.toNat = 10 ∨ c.toNat = 13

/-- Trim leading and trailing whitespace from a character list. -/
def trimChars (s : List Char) : List Char :=
  ((s.dropWhile is_ws).reverse.dropWhile is_ws).reverse

/-- The `char::is_ascii_alphabetic` test (code points of `A`-`Z` and
`a`-`z`). -/
def is_ascii_alpha (c : Char) : Bool :=
  (65 ≤ c.toNat ∧ c.toNat ≤ 90) ∨ (97 ≤ c.toNat ∧ c.toNat ≤ 122)

/-- ASCII uppercase conversion (`str::to_uppercase` acts per character on
ASCII input). -/
def ascii_upper (c : Char) : Char :=
  if 97 ≤ c.toNat ∧ c.toNat ≤ 122 then Char.ofNat (c.toNat - 32) else c

/-- Value of a decimal digit character, as accepted by `u32::from_str`. -/
def digit_val_dec (c : Char) : Option Nat :=
  if 48 ≤ c.toNat ∧ c.toNat ≤ 57 then some (c.toNat - 48) else none

/-- Value of a hexadecimal digit character, as accepted by
`u32::from_str_radix(_, 16)` (both letter cases). -/
def digit_val_hex (c : Char) : Option Nat :=
  if 48 ≤ c.toNat ∧ c.toNat ≤ 57 then some (c.toNat - 48)
  else if 65 ≤ c.toNat ∧ c.toNat ≤ 70 then some (c.toNat - 55)
  else if 97 ≤ c.toNat ∧ c.toNat ≤ 102 then some (c.toNat - 87)
  else none

/-- Fold step for checked base-`radix` accumulation into a `u32`. -/
def parse_nat_step (radix : Nat) (digitVal : Char → Option Nat)
    (acc : Option Nat) (c : Char) : Option Nat :=
  match acc, digitVal c with
  | some v, some d => if v * radix + d < 2 ^ 32 then some (v * radix + d) else none
  | _, _ => none

/-- Rust `u32` string parsing in a given radix: an optional leading `+`,
then at least one digit, rejecting values that overflow a `u32`. -/
def parse_u32_radix (radix : Nat) (digitVal : Char → Option Nat)
    (s : List Char) : Option Nat :=
  let body := match s with
    | c :: rest => if c = '+' then rest else s
    | [] => s
  if body = [] then none
  else body.foldl (parse_nat_step radix digitVal) (some 0)

/-- `parse_device_and_address` from `device.rs`: trim, split the leading
ASCII letters (case-insensitively) as the symbol, require a non-empty
numeric tail, resolve the symbol in the catalog, parse the tail in the
device's radix, and enforce the 24-bit address range. -/
def parse_device_and_address (cat : List Device) (input : List Char) :
    Except String (Device × Nat) :=
  let s := trimChars input
  if s = [] then .error "empty device string"
  else
    let up := s.map ascii_upper
    let symLen := (up.takeWhile is_ascii_alpha).length
    if symLen = 0 then .error "invalid device string"
    else
      let symbol := up.take symLen
      let num_part := trimChars (s.drop symLen)
      if num_part = [] then .error "missing numeric address in device string"
      else
        match device_by_symbol cat symbol with
        | none => .error "unknown device symbol"
        | some device =>
          let addrO := match device.base with
            | .Decimal => parse_u32_radix 10 digit_val_dec num_part
            | .Hexadecimal => parse_u32_radix 16 digit_val_hex num_part
          match addrO with
          | none => .error "invalid numeric address"
          | some addr =>
            if 0xFFFFFF < addr then .error "address out of range (max 0xFFFFFF)"
            else .ok (device, addr)

/-- Character for a digit value below 16, digits then uppercase letters. -/
def hex_digit_char (d : Nat) : Char :=
  if d < 10 then Char.ofNat (48 + d) else Char.ofNat (55 + d)

/-- Render a natural number in base `b` (most significant digit first);
zero renders as "0". Used to state the address-format round-trip law. -/
def render_nat (b : Nat) (a : Nat) : List Char :=
  if a = 0 then ['0'] else ((Nat.digits b a).reverse).map hex_digit_char

/-- Render an address in a device's declared radix. -/
def render_address (base : NumberBase) (a : Nat) : List Char :=
  match base with
  | .Decimal => render_nat 10 a
  | .Hexadecimal => render_nat 16 a

/-- Modelled from the spec: the embedded device catalog `devices.toml` is
not among the provided sources, so a small catalog is reconstructed from
the specification and the crate's own tests: `D` is a decimal word device
with wire code 0xA8, `M` a decimal bit device with wire code 0x90, and `W`
a hexadecimal word device (spec section 3 and its scenarios; the crate
tests parse `W1FFF` as hex and use code 0xA8 for `D`). -/
def demoCatalog : List Device :=
  [ { symbol := ['D'], category := .Word, base := .Decimal,
      device_code := 0xA8, supported_series := [.Q, .R] },
    { symbol := ['M'], category := .Bit, base := .Decimal,
      device_code := 0x90, supported_series := [.Q, .R] },
    { symbol := ['W'], category := .Word, base := .Hexadecimal,
      device_code := 0xB4, supported_series := [.Q, .R] } ]

/-! ## Command registry data model (`commands.rs`, `command_registry.rs`) -/

/-- Command identifiers, from `commands.rs` (`Command`). -/
inductive Command where
  | ReadWords
  | WriteWords
  | ReadBits
  | WriteBits
  | Echo
  | ReadRandomWords
  | WriteRandomWords
  | WriteRandomBits
  | ReadBlocks
  | WriteBlocks
deriving DecidableEq, Repr

/-- Declared acceptance filter for parameters (`DeviceFamily`). -/
inductive DeviceFamily where
  | Any
  | Bit
  | Word
  | DoubleWord
deriving DecidableEq, Repr

/-- Request field kinds (`FieldKind`). -/
inductive FieldKind where
  | FixedBytes (n : Nat) (le : Bool)
  | Words (le : Bool)
  | Bytes
  | AsciiHex
deriving DecidableEq, Repr

/-- Request field spec (`FieldSpec`). -/
structure FieldSpec where
  name : String
  kind : FieldKind
deriving DecidableEq, Repr

/-- Block template (`BlockTemplate`). -/
structure BlockTemplate where
  name : String
  repeat_field : String
  fields : List FieldSpec
  device_family : Option DeviceFamily
deriving DecidableEq, Repr

/-- Per-command point limits (`Limits`). -/
structure Limits where
  word_points : Option Nat
  dword_points : Option Nat
  bit_points : Option Nat
deriving DecidableEq, Repr

/-- Subcommand: single value or per-series table; the Rust table is a
`HashMap`, modelled as an association list (`values().next()` becomes the
first list entry). -/
inductive SubcommandSpec where
  | Single (v : Nat)
  | PerSeries (m : List (String × Nat))
deriving DecidableEq, Repr

/-- Response parse directives (`ResponseEntry`). -/
inductive ResponseEntry where
  | BlockWords (name : String) (le : Bool)
  | BlockBitsPacked (name : String) (lsb_first : Bool)
  | BlockNibbles (name : String) (high_first : Bool)
  | AsciiHex (name : String)
deriving DecidableEq, Repr

/-- Name under which a response entry stores its result. -/
def ResponseEntry.entryName : ResponseEntry → String
  | .BlockWords n _ => n
  | .BlockBitsPacked n _ => n
  | .BlockNibbles n _ => n
  | .AsciiHex n => n

/-- Command spec (`CommandSpec`); the `name`/`response_format` display
fields are omitted as they never influence building or parsing. -/
structure CommandSpec where
  id : Command
  command_code : Nat
  subcommand : Option SubcommandSpec
  device_family : DeviceFamily
  request_fields : List FieldSpec
  response_entries : List ResponseEntry
  block_templates : List BlockTemplate
  limits : Option Limits

/-! ## JSON parameter values

The Rust code drives the codec with `serde_json::Value` parameter maps.
Numbers are modelled as naturals: every numeric read in the codec goes
through `as_u64` (or `as_i64` filtered to be non-negative), so only
unsigned-integer-valued numbers are observable. Objects are association
lists with unique keys, as produced by serde maps. -/

inductive Json where
  | null
  | bool (b : Bool)
  | num (n : Nat)
  | str (s : String)
  | arr (items : List Json)
  | obj (fields : List (String × Json))

/-- Member access `Value::get(key)` on objects. -/
def Json.getKey : Json → String → Option Json
  | .obj kvs, key => kvs.lookup key
  | _, _ => none

/-- The `Value::as_u64` view. -/
def Json.as_u64 : Json → Option Nat
  | .num n => some n
  | _ => none

/-- The `Value::as_array` view. -/
def Json.as_array : Json → Option (List Json)
  | .arr xs => some xs
  | _ => none

/-- The `Value::as_object` view. -/
def Json.as_object : Json → Option (List (String × Json))
  | .obj kvs => some kvs
  | _ => none

/-- Result maps (`serde_json::Map`): insert replaces an existing key in
place, otherwise appends. -/
def mapInsert (m : List (String × Json)) (k : String) (v : Json) :
    List (String × Json) :=
  if m.any (fun kv => kv.1 = k) then
    m.map (fun kv => if kv.1 = k then (k, v) else kv)
  else m ++ [(k, v)]

/-- `CommandSpec::push_array_in_result_map`: append to an existing array
under `key`, otherwise insert a fresh one-element array. -/
def push_array_in_result_map (m : List (String × Json)) (key : String)
    (value : Json) : List (String × Json) :=
  match m.lookup key with
  | some (.arr xs) => mapInsert m key (.arr (xs ++ [value]))
  | _ => mapInsert m key (.arr [value])

/-! ## Request builder (`command_registry.rs`, `CommandSpec::build_request`) -/

/-- `write_n_bytes`: the least-significant `n` bytes of `v`, in the given
endianness (silently discarding any higher bytes of `v`). -/
def write_n_bytes (n v : Nat) (le : Bool) : List Nat :=
  let bytes := (List.range n).map (fun i => v / 256 ^ i % 256)
  if le then bytes else bytes.reverse

/-- Subcommand resolution inside `get_num_field`: single value, or
per-series table preferring the requested series, then `Q`, then any
entry, defaulting to 0. -/
def resolve_subcommand (spec : CommandSpec) (series : Option PLCSeries) : Nat :=
  let sub : Option Nat :=
    match spec.subcommand with
    | some (.Single v) => some v
    | some (.PerSeries m) =>
      match series with
      | some s =>
        let key := match s with | .Q => "Q" | .R => "R"
        (m.lookup key).orElse (fun _ => m.head?.map Prod.snd)
      | none => (m.lookup "Q").orElse (fun _ => m.head?.map Prod.snd)
    | none => none
  sub.getD 0

/-- `CommandSpec::get_num_field`: special-cases `command`, `subcommand`
and the computed block counters, otherwise reads a numeric parameter. -/
def get_num_field (spec : CommandSpec) (name : String) (params : Json)
    (series : Option PLCSeries) : Except String Nat :=
  if name = "command" then .ok spec.command_code
  else if name = "subcommand" then .ok (resolve_subcommand spec series)
  else if name = "word_block_count" then
    .ok (((params.getKey "word_blocks").bind Json.as_array).getD []).length
  else if name = "bit_block_count" then
    .ok (((params.getKey "bit_blocks").bind Json.as_array).getD []).length
  else
    match (params.getKey name).bind Json.as_u64 with
    | some v => .ok v
    | none => .error ("missing numeric param: " ++ name)

/-- Effective width/endianness overrides in `write_fixed_bytes_field` and
`emit_field_fixed_bytes`: `command`/`subcommand` are always LE,
`device_code` is 1 byte on Q and 2 on R, `start_addr` is 4 bytes LE on R. -/
def effective_fixed (name : String) (n : Nat) (le : Bool)
    (series : Option PLCSeries) (isTopLevel : Bool) : Nat × Bool :=
  if isTopLevel ∧ (name = "command" ∨ name = "subcommand") then (n, true)
  else if name = "device_code" then
    match series with
    | some .R => (2, true)
    | _ => (1, true)
  else if name = "start_addr" then
    match series with
    | some .R => (4, true)
    | _ => (n, le)
  else (n, le)

/-- `CommandSpec::write_fixed_bytes_field`. -/
def write_fixed_bytes_field (spec : CommandSpec) (f : FieldSpec) (params : Json)
    (series : Option PLCSeries) : Except String (List Nat) := do
  let v ← get_num_field spec f.name params series
  match f.kind with
  | .FixedBytes n le =>
    let eff := effective_fixed f.name n le series true
    .ok (write_n_bytes eff.1 v eff.2)
  | _ => .error "unreachable: non-fixed field"

/-- `CommandSpec::write_words_field`: each item must be a number fitting a
`u16`, written in the declared endianness. -/
def write_words_field (f : FieldSpec) (params : Json) : Except String (List Nat) :=
  match f.kind with
  | .Words le =>
    match (params.getKey f.name).bind Json.as_array with
    | some items =>
      items.foldlM (fun acc item =>
        match item.as_u64 with
        | some num =>
          if num ≤ 0xFFFF then
            .ok (acc ++ (if le then le16 num else be16 num))
          else .error "word array item out of range for u16"
        | none => .error "word array item not number") []
    | none => .error "expected array for words field"
  | _ => .error "unreachable: non-words field"

/-- `CommandSpec::write_bytes_field`: an array of byte values, or a string
taken as raw bytes; a missing parameter writes nothing. -/
def write_bytes_field (f : FieldSpec) (params : Json) : Except String (List Nat) :=
  match (params.getKey f.name).bind Json.as_array with
  | some items =>
    items.foldlM (fun acc it =>
      match it.as_u64 with
      | some bv =>
        if bv ≤ 255 then .ok (acc ++ [bv])
        else .error "payload item out of range for u8"
      | none => .error "payload item not number") []
  | none =>
    match params.getKey f.name with
    | some (.str s) => .ok (s.toList.map Char.toNat)
    | _ => .ok []

/-- `CommandSpec::write_ascii_hex_field`: a string validated to contain
only ASCII hex characters, or an array of byte values; a missing
parameter writes nothing. -/
def write_ascii_hex_field (f : FieldSpec) (params : Json) : Except String (List Nat) :=
  match params.getKey f.name with
  | some (.str s) =>
    (s.toList).foldlM (fun acc c =>
      if is_ascii_hex_byte c.toNat then .ok (acc ++ [c.toNat])
      else .error "payload string contains invalid ascii_hex byte") []
  | _ =>
    match (params.getKey f.name).bind Json.as_array with
    | some items =>
      items.foldlM (fun acc it =>
        match it.as_u64 with
        | some bv =>
          if bv ≤ 255 then .ok (acc ++ [bv])
          else .error "payload item out of range for u8"
        | none => .error "payload item not number") []
    | none => .ok []

/-- `CommandSpec::validate_code_for_family`: codes above `u8` range are
rejected; codes that resolve in the catalog are checked against the
family (word-family accepts word and double-word categories); codes that
do not resolve pass. -/
def validate_code_for_family (cat : List Device) (code_num : Nat)
    (family : DeviceFamily) : Except String Unit :=
  if 255 < code_num then .error "device code out of range"
  else
    match device_by_code cat code_num with
    | some dev =>
      match family with
      | .Any => .ok ()
      | .Bit =>
        if dev.category ≠ .Bit then .error "command requires a bit device"
        else .ok ()
      | .Word =>
        if ¬ (dev.category = .Word ∨ dev.category = .DoubleWord) then
          .error "command requires a word device"
        else .ok ()
      | .DoubleWord =>
        if dev.category ≠ .DoubleWord then .error "command requires a double-word device"
        else .ok ()
    | none => .ok ()

/-- Device-code validation of block entries in `write_request_fields`:
each entry's `device_code` is checked against the block-level family when
present, else the command-level family. -/
def check_block_device_codes (cat : List Device) (spec : CommandSpec)
    (params : Json) : Except String Unit :=
  spec.block_templates.foldlM (fun _ bt =>
    match (params.getKey (bt.name ++ "s")).bind Json.as_array with
    | some entries =>
      entries.foldlM (fun _ entry =>
        match entry.as_object with
        | some obj =>
          match (obj.lookup "device_code").bind Json.as_u64 with
          | some dc => validate_code_for_family cat dc (bt.device_family.getD spec.device_family)
          | none => .ok ()
        | none => .ok ()) ()
    | none => .ok ()) ()

/-- `CommandSpec::write_request_fields`: top-level and per-block device
family checks, then the fields emitted in declared order. -/
def write_request_fields (cat : List Device) (spec : CommandSpec) (params : Json)
    (series : Option PLCSeries) : Except String (List Nat) := do
  (match (params.getKey "device_code").bind Json.as_u64 with
   | some dc => validate_code_for_family cat dc spec.device_family
   | none => .ok ())
  check_block_device_codes cat spec params
  spec.request_fields.foldlM (fun acc f => do
    let bs ← match f.kind with
      | .FixedBytes _ _ => write_fixed_bytes_field spec f params series
      | .Words _ => write_words_field f params
      | .Bytes => write_bytes_field f params
      | .AsciiHex => write_ascii_hex_field f params
    .ok (acc ++ bs)) []

/-- Point totals per device category over all block entries, used by
`validate_block_limits`; entries with unresolvable codes are skipped. -/
def block_points (cat : List Device) (spec : CommandSpec) (params : Json) :
    Nat × Nat × Nat :=
  spec.block_templates.foldl (fun acc bt =>
    match (params.getKey (bt.name ++ "s")).bind Json.as_array with
    | some entries =>
      entries.foldl (fun acc2 entry =>
        match entry.as_object with
        | some obj =>
          match (obj.lookup "device_code").bind Json.as_u64,
                (obj.lookup "count").bind Json.as_u64 with
          | some dc, some count =>
            if dc ≤ 255 then
              match device_by_code cat dc with
              | some dev =>
                match dev.category with
                | .Word => (acc2.1 + count, acc2.2.1, acc2.2.2)
                | .DoubleWord => (acc2.1, acc2.2.1 + count, acc2.2.2)
                | .Bit => (acc2.1, acc2.2.1, acc2.2.2 + count)
              | none => acc2
            else acc2
          | _, _ => acc2
        | none => acc2) acc
    | none => acc) (0, 0, 0)

/-- `CommandSpec::validate_block_limits`. -/
def validate_block_limits (cat : List Device) (spec : CommandSpec)
    (params : Json) : Except String Unit :=
  match spec.limits with
  | none => .ok ()
  | some lim =>
    let pts := block_points cat spec params
    if ∃ wp, lim.word_points = some wp ∧ wp < pts.1 then
      .error "exceeds word_points limit"
    else if ∃ dp, lim.dword_points = some dp ∧ dp < pts.2.1 then
      .error "exceeds dword_points limit"
    else if ∃ bp, lim.bit_points = some bp ∧ bp < pts.2.2 then
      .error "exceeds bit_points limit"
    else .ok ()

/-- `CommandSpec::emit_field_fixed_bytes` (block-level fixed field). -/
def emit_field_fixed_bytes (fld : FieldSpec) (obj : List (String × Json))
    (series : Option PLCSeries) : Except String (List Nat) :=
  match (obj.lookup fld.name).bind Json.as_u64 with
  | none => .error ("missing block field " ++ fld.name)
  | some val =>
    match fld.kind with
    | .FixedBytes n le =>
      let eff := effective_fixed fld.name n le series false
      .ok (write_n_bytes eff.1 val eff.2)
    | _ => .error "unreachable: non-fixed field"

/-- `CommandSpec::emit_field_words` (block-level words field): an array of
`u16` values, or a single numeric value. -/
def emit_field_words (fld : FieldSpec) (obj : List (String × Json)) :
    Except String (List Nat) :=
  match fld.kind with
  | .Words le =>
    match (obj.lookup fld.name).bind Json.as_array with
    | some items =>
      items.foldlM (fun acc it =>
        match it.as_u64 with
        | some v =>
          if v ≤ 0xFFFF then .ok (acc ++ (if le then le16 v else be16 v))
          else .error "word array item out of range for u16"
        | none => .error "word array item not number") []
    | none =>
      match (obj.lookup fld.name).bind Json.as_u64 with
      | some v =>
        if v ≤ 0xFFFF then .ok (if le then le16 v else be16 v)
        else .error "field out of range for u16"
      | none => .error ("missing field " ++ fld.name)
  | _ => .error "unreachable: non-words field"

/-- `CommandSpec::emit_block_template`: the parameter map must contain an
array under the pluralized block name; each entry is an object whose
fields are emitted in declared order. -/
def emit_block_template (bt : BlockTemplate) (params : Json)
    (series : Option PLCSeries) : Except String (List Nat) :=
  match (params.getKey (bt.name ++ "s")).bind Json.as_array with
  | none => .error ("missing block array: " ++ bt.name ++ "s")
  | some entries =>
    entries.foldlM (fun acc entry =>
      match entry.as_object with
      | none => .error "block entry must be object"
      | some obj => do
        let bs ← bt.fields.foldlM (fun acc2 fld => do
          let b ← match fld.kind with
            | .FixedBytes _ _ => emit_field_fixed_bytes fld obj series
            | .Words _ => emit_field_words fld obj
            | .Bytes => .ok []
            | .AsciiHex => .ok []
          .ok (acc2 ++ b)) []
        .ok (acc ++ bs)) []

/-- `CommandSpec::build_request`: validated request fields followed by the
emitted block templates. -/
def build_request (cat : List Device) (spec : CommandSpec) (params : Json)
    (series : Option PLCSeries) : Except String (List Nat) := do
  let fieldBytes ← write_request_fields cat spec params series
  validate_block_limits cat spec params
  let blockBytes ← spec.block_templates.foldlM (fun acc bt => do
    let b ← emit_block_template bt params series
    .ok (acc ++ b)) []
  .ok (fieldBytes ++ blockBytes)

/-! ## Response parser (`command_registry.rs`, `CommandSpec::parse_response`) -/

/-- `CommandSpec::read_block_count`: the `count` member of a block
descriptor. -/
def read_block_count (block : Json) : Except String Nat :=
  match (block.getKey "count").bind Json.as_u64 with
  | some c => .ok c
  | none => .error "missing count in block"

/-- Decode one 16-bit word at `off` in the declared endianness. -/
def read_word (bytes : List Nat) (off : Nat) (le : Bool) : Nat :=
  if le then bytes.getD off 0 + 256 * bytes.getD (off + 1) 0
  else 256 * bytes.getD off 0 + bytes.getD (off + 1) 0

/-- The 16 bits of a word, LSB-first, as JSON booleans. -/
def bits16_lsb (w : Nat) : List Json :=
  (List.range 16).map (fun i => Json.bool (w / 2 ^ i % 2 = 1))

/-- The `bit_blocks` synthesis inside `parse_block_words_entry`: when the
block descriptor's device code (or, failing that, the top-level one)
resolves to a bit-category device and the count is exactly 1, the 16 bits
of the just-decoded word are appended under `bit_blocks`. -/
def maybe_push_bit_blocks (cat : List Device) (params block : Json)
    (count : Nat) (out_blocks : List Json) (m : List (String × Json)) :
    List (String × Json) :=
  match ((block.getKey "device_code").bind Json.as_u64).orElse
      (fun _ => (params.getKey "device_code").bind Json.as_u64) with
  | none => m
  | some dc =>
    if dc ≤ 255 then
      match device_by_code cat dc with
      | some dev =>
        if dev.category = .Bit ∧ count = 1 then
          match out_blocks.getLast? with
          | some (.arr [single]) =>
            match single.as_u64 with
            | some numv =>
              push_array_in_result_map m "bit_blocks"
                (.arr (bits16_lsb (if numv ≤ 0xFFFF then numv else 0)))
            | none => m
          | _ => m
        else m
      | none => m
    else m

/-- Block loop of `parse_block_words_entry`: decode `count` words per
descriptor, threading the offset, the decoded blocks and the result map
(which receives the synthesized `bit_blocks` entries). -/
def parse_words_blocks (cat : List Device) (le : Bool) (params : Json)
    (bytes : List Nat) :
    List Json → Nat → List Json → List (String × Json) →
    Except String (Nat × List Json × List (String × Json))
  | [], offset, out, m => .ok (offset, out, m)
  | block :: rest, offset, out, m =>
    match read_block_count block with
    | .error e => .error e
    | .ok count =>
      if bytes.length < offset + count * 2 then
        .error "response too short for word block"
      else
        let words := (List.range count).map
          (fun i => Json.num (read_word bytes (offset + 2 * i) le))
        let out2 := out ++ [Json.arr words]
        let m2 := maybe_push_bit_blocks cat params block count out2 m
        parse_words_blocks cat le params bytes rest (offset + count * 2) out2 m2

/-- Descriptor arrays cached from the top-level parameter object
(`cached_arrays` in `parse_response`); a missing or non-array entry is the
empty list (`unwrap_or_default`). -/
def cached_arrays (params : Json) (name : String) : List Json :=
  ((params.getKey name).bind Json.as_array).getD []

/-- `CommandSpec::parse_block_words_entry`. -/
def parse_block_words_entry (cat : List Device) (name : String) (le : Bool)
    (params : Json) (bytes : List Nat) (offset : Nat)
    (m : List (String × Json)) :
    Except String (Nat × List (String × Json)) :=
  match parse_words_blocks cat le params bytes (cached_arrays params name) offset [] m with
  | .error e => .error e
  | .ok r => .ok (r.1, mapInsert r.2.2 name (.arr r.2.1))

/-- Block loop of `parse_block_bits_packed_entry`: `ceil(count/8)` bytes
per descriptor, bit `i` read LSB- or MSB-first within its byte. -/
def parse_bits_blocks (bytes : List Nat) (lsb_first : Bool) :
    List Json → Nat → List Json → Except String (Nat × List Json)
  | [], offset, out => .ok (offset, out)
  | block :: rest, offset, out =>
    match read_block_count block with
    | .error e => .error e
    | .ok count =>
      if bytes.length < offset + (count + 7) / 8 then
        .error "response too short for bit block"
      else
        let bits := (List.range count).map (fun i =>
          let b := bytes.getD (offset + i / 8) 0
          Json.bool (if lsb_first then b / 2 ^ (i % 8) % 2 = 1
                     else b / 2 ^ (7 - i % 8) % 2 = 1))
        parse_bits_blocks bytes lsb_first rest (offset + (count + 7) / 8)
          (out ++ [Json.arr bits])

/-- `CommandSpec::parse_block_bits_packed_entry`. -/
def parse_block_bits_packed_entry (name : String) (lsb_first : Bool)
    (params : Json) (bytes : List Nat) (offset : Nat)
    (m : List (String × Json)) :
    Except String (Nat × List (String × Json)) :=
  match parse_bits_blocks bytes lsb_first (cached_arrays params name) offset [] with
  | .error e => .error e
  | .ok r => .ok (r.1, mapInsert m name (.arr r.2))

/-- Block loop of `parse_block_nibbles_entry`: `ceil(count/2)` bytes per
descriptor, successive nibbles high- or low-first, each reported as the
boolean `nibble ≠ 0`. -/
def parse_nibbles_blocks (bytes : List Nat) (high_first : Bool) :
    List Json → Nat → List Json → Except String (Nat × List Json)
  | [], offset, out => .ok (offset, out)
  | block :: rest, offset, out =>
    match read_block_count block with
    | .error e => .error e
    | .ok count =>
      if bytes.length < offset + (count + 1) / 2 then
        .error "response too short for nibble block"
      else
        let nibs := (List.range count).map (fun j =>
          let b := bytes.getD (offset + j / 2) 0
          let v := if high_first then (if j % 2 = 0 then b / 16 % 16 else b % 16)
                   else (if j % 2 = 0 then b % 16 else b / 16 % 16)
          Json.bool (v ≠ 0))
        parse_nibbles_blocks bytes high_first rest (offset + (count + 1) / 2)
          (out ++ [Json.arr nibs])

/-- `CommandSpec::parse_block_nibbles_entry`. -/
def parse_block_nibbles_entry (name : String) (high_first : Bool)
    (params : Json) (bytes : List Nat) (offset : Nat)
    (m : List (String × Json)) :
    Except String (Nat × List (String × Json)) :=
  match parse_nibbles_blocks bytes high_first (cached_arrays params name) offset [] with
  | .error e => .error e
  | .ok r => .ok (r.1, mapInsert m name (.arr r.2))

/-- Decode a list of ASCII byte values as a string (the bytes have been
validated to be ASCII hex characters, so UTF-8 decoding cannot fail). -/
def asciiString (bs : List Nat) : String :=
  String.mk (bs.map Char.ofNat)

/-- The ascii-hex response entry: validate and consume all remaining
bytes. -/
def parse_ascii_hex_entry (name : String) (bytes : List Nat) (offset : Nat)
    (m : List (String × Json)) :
    Except String (Nat × List (String × Json)) :=
  if bytes.length < offset then .error "response offset beyond end"
  else if ¬ (bytes.drop offset).all is_ascii_hex_byte then
    .error "response ascii_hex contains invalid byte"
  else .ok (bytes.length, mapInsert m name (.str (asciiString (bytes.drop offset))))

/-- Dispatch of one response directive (the `match entry` arms inside
`CommandSpec::parse_response_entries`). -/
def run_response_entry (cat : List Device) (params : Json) (bytes : List Nat)
    (e : ResponseEntry) (offset : Nat) (m : List (String × Json)) :
    Except String (Nat × List (String × Json)) :=
  match e with
  | .BlockWords name le =>
    parse_block_words_entry cat name le params bytes offset m
  | .BlockBitsPacked name lsb_first =>
    parse_block_bits_packed_entry name lsb_first params bytes offset m
  | .BlockNibbles name high_first =>
    parse_block_nibbles_entry name high_first params bytes offset m
  | .AsciiHex name =>
    parse_ascii_hex_entry name bytes offset m

/-- `CommandSpec::parse_response_entries`: run each response directive in
order, threading the byte offset and the result map. -/
def parse_response_entries (cat : List Device) (params : Json)
    (bytes : List Nat) :
    List ResponseEntry → Nat → List (String × Json) →
    Except String (Nat × List (String × Json))
  | [], offset, m => .ok (offset, m)
  | e :: rest, offset, m =>
    match run_response_entry cat params bytes e offset m with
    | .error e2 => .error e2
    | .ok r => parse_response_entries cat params bytes rest r.1 r.2

/-- `CommandSpec::parse_response`: structured result from the response
body bytes, driven by the spec's response entries and the request
parameters. -/
def parse_response (cat : List Device) (spec : CommandSpec) (params : Json)
    (bytes : List Nat) : Except String Json :=
  match parse_response_entries cat params bytes spec.response_entries 0 [] with
  | .error e => .error e
  | .ok r => .ok (.obj r.2)

/-! ## Concrete fixtures used by the claim theorems -/

/-- The `read_words` command spec as the crate's own tests load it
(`command_registry_tests.rs`), with the word device family the
specification declares for word-read commands. -/
def readWordsSpec : CommandSpec :=
  { id := .ReadWords
    command_code := 0x0401
    subcommand := some (.Single 0x0000)
    device_family := .Word
    request_fields :=
      [ { name := "command", kind := .FixedBytes 2 false },
        { name := "subcommand", kind := .FixedBytes 2 false },
        { name := "start_addr", kind := .FixedBytes 3 true },
        { name := "device_code", kind := .FixedBytes 1 true },
        { name := "count", kind := .FixedBytes 2 true } ]
    response_entries := [ .BlockWords "data_blocks" true ]
    block_templates := []
    limits := none }

/-! ## Theorems -/

/-- Closed form of the serial counter: after `n` draws the state is
`n % 0xFFFF + 1`. -/
theorem serial_state_closed (n : Nat) : serial_state n = n % 65535 + 1 := by
  induction n with
  | zero => rfl
  | succ n ih =>
    show serial_step (serial_state n) = (n + 1) % 65535 + 1
    rw [ih]
    unfold serial_step
    by_cases h : n % 65535 + 1 = 65535
    · rw [if_pos h]
      omega
    · rw [if_neg h]
      omega

/-- C7: every serial drawn from the process-wide counter lies in
`1..=0xFFFF` and is never 0; the counter starts at 1, each draw steps it
once, the step wraps `0xFFFF` back to 1, and any two draws less than
`0xFFFF` apart are distinct. -/
theorem serial_draw_range_and_distinct :
    (∀ n, 1 ≤ serial_draw n ∧ serial_draw n ≤ 0xFFFF ∧ serial_draw n ≠ 0) ∧
    serial_state 0 = 1 ∧
    (∀ n, serial_state (n + 1) = serial_step (serial_state n)) ∧
    serial_step 0xFFFF = 1 ∧
    (∀ i j, i < j → j - i < 0xFFFF → serial_draw i ≠ serial_draw j) := by
  refine ⟨?_, rfl, fun n => rfl, rfl, ?_⟩
  · intro n
    unfold serial_draw
    rw [serial_state_closed]
    omega
  · intro i j hij hgap h
    unfold serial_draw at h
    rw [serial_state_closed, serial_state_closed] at h
    omega

/-- Witness for C7 at concrete draws. -/
theorem serial_draw_range_and_distinct_witness :
    (1 ≤ serial_draw 0 ∧ serial_draw 0 ≤ 0xFFFF ∧ serial_draw 0 ≠ 0) ∧
    serial_draw 0 ≠ serial_draw 5 :=
  ⟨serial_draw_range_and_distinct.1 0,
   serial_draw_range_and_distinct.2.2.2.2 0 5 (by decide) (by decide)⟩

set_option maxRecDepth 40000 in
/-- C9: the echo operation rejects, before any request is assembled, every
payload whose length is outside `[1, 960]` and every payload containing a
non-hex byte; a payload of exactly 960 lowercase hex characters passes
validation and proceeds to request assembly. -/
theorem echo_rejects_invalid_payloads :
    (∀ p : List Nat, p.length < 1 ∨ 960 < p.length →
      echo_build p = .error "echo payload length out of range") ∧
    (∀ p : List Nat, (∃ b ∈ p, is_ascii_hex_byte b = false) →
      isErr (echo_build p) = true) ∧
    echo_build (List.replicate 960 0x61) =
      .ok (le16 0x0619 ++ le16 0x0000 ++ List.replicate 960 0x61) := by
  refine ⟨?_, ?_, ?_⟩
  · intro p hp
    have h : ¬ (1 ≤ p.length ∧ p.length ≤ 960) := by omega
    simp [echo_build, echo_validate, h]
  · rintro p ⟨b, hb, hhex⟩
    by_cases hlen : 1 ≤ p.length ∧ p.length ≤ 960
    · have hall : ¬ (p.all is_ascii_hex_byte = true) := by
        simp only [List.all_eq_true]
        intro hforall
        have := hforall b hb
        rw [hhex] at this
        exact Bool.false_ne_true this
      simp [echo_build, echo_validate, hlen, hall, isErr]
    · simp [echo_build, echo_validate, hlen, isErr]
  · rfl

/-- Witness for C9 at concrete payloads. -/
theorem echo_rejects_invalid_payloads_witness :
    echo_build [] = .error "echo payload length out of range" ∧
    isErr (echo_build [0x47]) = true :=
  ⟨echo_rejects_invalid_payloads.1 [] (by decide),
   echo_rejects_invalid_payloads.2.1 [0x47] ⟨0x47, by decide, by decide⟩⟩

/-- Extraction of a successful `try_with_request_data`: the length fits a
`u16` and the request carries the body with length field `len + 2`. -/
theorem try_with_request_data_ok {r0 r : McRequest} {data : List Nat}
    (h : r0.try_with_request_data data = .ok r) :
    data.length + 2 ≤ 0xFFFF ∧
    r = { r0 with request_data_len := data.length + 2, request_data := data } := by
  unfold McRequest.try_with_request_data at h
  by_cases hle : data.length + 2 ≤ 0xFFFF
  · refine ⟨hle, ?_⟩
    simp only [hle, if_true, reduceIte] at h
    exact (Except.ok.inj h).symm
  · simp [hle] at h

/-- Byte layout of an extended (MC4E) built frame. -/
theorem build_mc4e_eq (serial timer : Nat) (route : AccessRoute) (body : List Nat)
    (len : Nat) :
    (mkRequest serial timer route body len).build_with_format .MC4E =
      0x54 :: 0x00 :: serial % 256 :: serial / 256 % 256 :: 0 :: 0 ::
      route.network_number % 256 :: route.pc_number % 256 ::
      route.io_number % 256 :: route.io_number / 256 % 256 ::
      route.station_number % 256 ::
      len % 256 :: len / 256 % 256 ::
      timer / 256 % 256 :: timer % 256 :: body := by
  simp [mkRequest, McRequest.build_with_format, le16, be16, AccessRoute.to_bytes]

/-- Byte layout of a compact (MC3E) built frame. -/
theorem build_mc3e_eq (serial timer : Nat) (route : AccessRoute) (body : List Nat)
    (len : Nat) :
    (mkRequest serial timer route body len).build_with_format .MC3E =
      0x54 :: 0x00 ::
      route.network_number % 256 :: route.pc_number % 256 ::
      route.io_number % 256 :: route.io_number / 256 % 256 ::
      route.station_number % 256 ::
      len % 256 :: len / 256 % 256 ::
      timer % 256 :: timer / 256 % 256 :: body := by
  simp [mkRequest, McRequest.build_with_format, le16, AccessRoute.to_bytes]

/-- The frame detector on an extended built frame reports header 15, the
total length, and the request serial. -/
theorem detect_on_mc4e (serial timer : Nat) (route : AccessRoute) (body : List Nat)
    (hle : body.length + 2 ≤ 0xFFFF) :
    detect_frame (0x54 :: 0x00 :: serial % 256 :: serial / 256 % 256 :: 0 :: 0 ::
      route.network_number % 256 :: route.pc_number % 256 ::
      route.io_number % 256 :: route.io_number / 256 % 256 ::
      route.station_number % 256 ::
      (body.length + 2) % 256 :: (body.length + 2) / 256 % 256 ::
      timer / 256 % 256 :: timer % 256 :: body) =
      .ok (some (15 + body.length, 15, some (serial % 65536))) := by
  unfold detect_frame
  simp only [List.getD_cons_zero, List.getD_cons_succ, List.length_cons,
    MC_SUBHEADER_REQUEST_0, MC_SUBHEADER_RESPONSE_0]
  rw [if_neg (by omega), if_pos (⟨by omega, by norm_num⟩ :
      15 ≤ _ ∧ _), if_neg (by omega), if_pos (by omega)]
  have h1 : 15 + ((body.length + 2) % 256 + 256 * ((body.length + 2) / 256 % 256) - 2)
      = 15 + body.length := by omega
  have h2 : serial % 256 + 256 * (serial / 256 % 256) = serial % 65536 := by omega
  rw [h1, h2]

/-- The frame detector on a compact built frame whose body is shorter than
4 bytes reports header 11 and the total length. -/
theorem detect_on_mc3e_short (timer : Nat) (route : AccessRoute) (body : List Nat)
    (hlt : body.length < 4) :
    detect_frame (0x54 :: 0x00 ::
      route.network_number % 256 :: route.pc_number % 256 ::
      route.io_number % 256 :: route.io_number / 256 % 256 ::
      route.station_number % 256 ::
      (body.length + 2) % 256 :: (body.length + 2) / 256 % 256 ::
      timer % 256 :: timer / 256 % 256 :: body) =
      .ok (some (11 + body.length, 11, none)) := by
  unfold detect_frame
  simp only [List.getD_cons_zero, List.getD_cons_succ, List.length_cons,
    MC_SUBHEADER_REQUEST_0, MC_SUBHEADER_RESPONSE_0]
  rw [if_neg (by omega), if_neg (fun h => absurd h.1 (by omega)),
    if_pos (⟨by omega, by omega⟩ : 11 ≤ _ ∧ _)]
  have h1 : 11 + ((body.length + 2) % 256 + 256 * ((body.length + 2) / 256 % 256) - 2)
      = 11 + body.length := by omega
  rw [h1]

/-- C2 (amended): every frame built in the extended (MC4E) dialect
satisfies the length invariant, `detect_frame` reporting exactly the built
byte count (and the request serial); a compact (MC3E) frame satisfies it
when its body is shorter than 4 bytes (total under 15 bytes), but not in
general, because the compact subheader's first byte 0x54 makes longer
compact frames match the extended branch of the detector. -/
theorem detect_frame_length_on_built_frames (serial timer : Nat)
    (route : AccessRoute) (body : List Nat) (r : McRequest)
    (h : (((McRequest.new serial).with_access_route route).with_monitoring_timer
        timer).try_with_request_data body = .ok r) :
    ((r.build_with_format .MC4E).length = 15 + body.length ∧
      detect_frame (r.build_with_format .MC4E) =
        .ok (some (15 + body.length, 15, some (serial % 65536)))) ∧
    (body.length < 4 →
      (r.build_with_format .MC3E).length = 11 + body.length ∧
      detect_frame (r.build_with_format .MC3E) =
        .ok (some (11 + body.length, 11, none))) := by
  obtain ⟨hle, hr⟩ := try_with_request_data_ok h
  have hrexp : r = mkRequest serial timer route body (body.length + 2) := hr
  subst hrexp
  refine ⟨⟨?_, ?_⟩, fun hlt => ⟨?_, ?_⟩⟩
  · rw [build_mc4e_eq]
    simp only [List.length_cons]
    omega
  · rw [build_mc4e_eq]
    exact detect_on_mc4e serial timer route body hle
  · rw [build_mc3e_eq]
    simp only [List.length_cons]
    omega
  · rw [build_mc3e_eq]
    exact detect_on_mc3e_short timer route body hlt

/-- Witness for C2 (amended) at a concrete request. -/
theorem detect_frame_length_on_built_frames_witness :
    (((McRequest.new 7).with_access_route AccessRoute.default).with_monitoring_timer
        0x1000).try_with_request_data [0xAA, 0xBB] =
      .ok (mkRequest 7 0x1000 AccessRoute.default [0xAA, 0xBB] 4) ∧
    detect_frame ((mkRequest 7 0x1000 AccessRoute.default [0xAA, 0xBB]
        4).build_with_format .MC4E) = .ok (some (17, 15, some 7)) := by
  constructor
  · rfl
  · have := (detect_frame_length_on_built_frames 7 0x1000 AccessRoute.default
      [0xAA, 0xBB] _ (by rfl)).1.2
    simpa using this

/-- C2 counterexample: the compact-dialect frame built for the body
`[0x01, 0x04, 0x00, 0x00]` is 15 bytes long, but `detect_frame` matches
its leading 0x54 byte as an extended header and reports a total frame
length of 1038. -/
theorem detect_frame_mc3e_counterexample :
    Except.map
        (fun r : McRequest =>
          ((r.build_with_format .MC3E).length,
            detect_frame (r.build_with_format .MC3E)))
        ((McRequest.new 1).try_with_request_data [0x01, 0x04, 0x00, 0x00]) =
      .ok (15, .ok (some (1038, 15, some 65280))) ∧ (1038 : Nat) ≠ 15 :=
  ⟨rfl, by decide⟩

/-- C8: in the extended (MC4E) dialect the monitoring timer is written
big-endian at offsets 13..15 while the compact (MC3E) dialect writes it
little-endian at offsets 9..11; in both dialects the length field is
little-endian and equals the body length plus 2. -/
theorem monitoring_timer_and_length_fields (serial timer : Nat)
    (route : AccessRoute) (body : List Nat) (r : McRequest)
    (ht : timer ≤ 0xFFFF)
    (h : (((McRequest.new serial).with_access_route route).with_monitoring_timer
        timer).try_with_request_data body = .ok r) :
    ((r.build_with_format .MC4E).getD 13 0 = timer / 256 ∧
     (r.build_with_format .MC4E).getD 14 0 = timer % 256 ∧
     (r.build_with_format .MC4E).getD 11 0 +
       256 * (r.build_with_format .MC4E).getD 12 0 = body.length + 2) ∧
    ((r.build_with_format .MC3E).getD 9 0 = timer % 256 ∧
     (r.build_with_format .MC3E).getD 10 0 = timer / 256 ∧
     (r.build_with_format .MC3E).getD 7 0 +
       256 * (r.build_with_format .MC3E).getD 8 0 = body.length + 2) := by
  obtain ⟨hle, hr⟩ := try_with_request_data_ok h
  have hrexp : r = mkRequest serial timer route body (body.length + 2) := hr
  subst hrexp
  rw [build_mc4e_eq, build_mc3e_eq]
  simp only [List.getD_cons_zero, List.getD_cons_succ, and_true, true_and]
  omega

/-- Witness for C8 at a concrete request. -/
theorem monitoring_timer_and_length_fields_witness :
    ((mkRequest 7 0x0A0B AccessRoute.default [0xAA, 0xBB]
        4).build_with_format .MC4E).getD 13 0 = 0x0A ∧
    ((mkRequest 7 0x0A0B AccessRoute.default [0xAA, 0xBB]
        4).build_with_format .MC3E).getD 9 0 = 0x0B := by
  have := monitoring_timer_and_length_fields 7 0x0A0B AccessRoute.default
    [0xAA, 0xBB] _ (by decide) (by rfl)
  exact ⟨this.1.1, this.2.1⟩

/-- A list no element of which satisfies `p` is unchanged by `dropWhile`. -/
theorem dropWhile_eq_self_of (p : Char → Bool) (s : List Char)
    (h : ∀ c ∈ s, p c = false) : s.dropWhile p = s := by
  cases s with
  | nil => rfl
  | cons a t => simp [List.dropWhile_cons, h a (List.mem_cons_self a t)]

/-- Trimming is the identity on whitespace-free strings. -/
theorem trimChars_eq_self (s : List Char) (h : ∀ c ∈ s, is_ws c = false) :
    trimChars s = s := by
  unfold trimChars
  rw [dropWhile_eq_self_of _ _ h,
    dropWhile_eq_self_of _ _ (fun c hc => h c (List.mem_reverse.mp hc)),
    List.reverse_reverse]

/-- Taking while `p` walks through an all-`p` prefix. -/
theorem takeWhile_append_all (p : Char → Bool) (xs ys : List Char)
    (h : ∀ x ∈ xs, p x = true) :
    (xs ++ ys).takeWhile p = xs ++ ys.takeWhile p := by
  induction xs with
  | nil => simp
  | cons a t ih =>
    have ha := h a (List.mem_cons_self a t)
    simp only [List.cons_append, List.takeWhile_cons, ha, if_true]
    rw [ih (fun x hx => h x (List.mem_cons_of_mem a hx))]

/-- A map fixing every element is the identity. -/
theorem map_eq_self_of (f : Char → Char) (s : List Char)
    (h : ∀ c ∈ s, f c = c) : s.map f = s := by
  induction s with
  | nil => rfl
  | cons a t ih =>
    rw [List.map_cons, h a (List.mem_cons_self a t),
      ih (fun c hc => h c (List.mem_cons_of_mem a hc))]

/-- Alphabetic characters are not whitespace. -/
theorem is_ws_false_of_alpha (c : Char) (h : is_ascii_alpha c = true) :
    is_ws c = false := by
  unfold is_ascii_alpha at h
  unfold is_ws
  simp only [decide_eq_true_eq] at h
  simp only [decide_eq_false_iff_not]
  omega

/-- Code point of a character built from a valid code point. -/
theorem char_toNat_ofNat (n : Nat) (h : n.isValidChar) :
    (Char.ofNat n).toNat = n := by
  unfold Char.ofNat
  rw [dif_pos h]
  rfl

/-- A list every element of which satisfies `p` is unchanged by
`takeWhile`. -/
theorem takeWhile_eq_self_of (p : Char → Bool) (s : List Char)
    (h : ∀ c ∈ s, p c = true) : s.takeWhile p = s := by
  induction s with
  | nil => rfl
  | cons a t ih =>
    simp only [List.takeWhile_cons, h a (List.mem_cons_self a t), if_true]
    rw [ih (fun c hc => h c (List.mem_cons_of_mem a hc))]

/-- Uppercasing preserves the alphabetic property. -/
theorem is_ascii_alpha_upper (x : Char) (hax : is_ascii_alpha x = true) :
    is_ascii_alpha (ascii_upper x) = true := by
  unfold is_ascii_alpha at hax ⊢
  unfold ascii_upper
  simp only [decide_eq_true_eq] at hax ⊢
  by_cases hlow : 97 ≤ x.toNat ∧ x.toNat ≤ 122
  · rw [if_pos hlow]
    rw [char_toNat_ofNat (x.toNat - 32) (Or.inl (by omega))]
    omega
  · rw [if_neg hlow]
    omega

/-- C5 (amended): `parse_address` on a non-empty string of letters alone
fails with a protocol error (missing numeric address), for every catalog;
the address-0 default for symbol-only strings lives in
`create_read_words_params`, not in the address parser. -/
theorem parse_address_letters_alone_fails (cat : List Device) (s : List Char)
    (hne : s ≠ []) (halpha : ∀ c ∈ s, is_ascii_alpha c = true) :
    parse_device_and_address cat s =
      .error "missing numeric address in device string" := by
  unfold parse_device_and_address
  have hnows : ∀ c ∈ s, is_ws c = false :=
    fun c hc => is_ws_false_of_alpha c (halpha c hc)
  rw [trimChars_eq_self s hnows]
  rw [if_neg hne]
  have hupalpha : ∀ c ∈ s.map ascii_upper, is_ascii_alpha c = true := by
    intro c hc
    obtain ⟨x, hx, hfx⟩ := List.mem_map.mp hc
    subst hfx
    exact is_ascii_alpha_upper x (halpha x hx)
  have htake : (s.map ascii_upper).takeWhile is_ascii_alpha = s.map ascii_upper :=
    takeWhile_eq_self_of _ _ hupalpha
  simp only [htake, List.length_map]
  rw [if_neg (fun h0 => hne (List.length_eq_zero.mp h0)), List.drop_length]
  simp [trimChars]

/-- Witness for C5 (amended) at the symbol `M` of the modelled catalog. -/
theorem parse_address_letters_alone_fails_witness :
    parse_device_and_address demoCatalog [Char.ofNat 77] =
      .error "missing numeric address in device string" :=
  parse_address_letters_alone_fails demoCatalog [Char.ofNat 77]
    (by decide) (by decide)

/-- C5 counterexample: `M` names a catalog device, yet parsing the string
consisting of its letters alone is an error, not address 0. -/
theorem parse_address_letters_alone_counterexample :
    (device_by_symbol demoCatalog [Char.ofNat 77]).isSome = true ∧
    parse_device_and_address demoCatalog [Char.ofNat 77] =
      .error "missing numeric address in device string" := by
  exact ⟨rfl, rfl⟩

/-- Digit characters are not whitespace. -/
theorem hexchar_not_ws : ∀ d, d < 16 → is_ws (hex_digit_char d) = false := by
  decide

/-- Decimal digit characters are not alphabetic. -/
theorem hexchar_dec_not_alpha : ∀ d, d < 10 →
    is_ascii_alpha (hex_digit_char d) = false := by
  decide

/-- Digit characters are fixed by uppercasing. -/
theorem hexchar_upper_fixed : ∀ d, d < 16 →
    ascii_upper (hex_digit_char d) = hex_digit_char d := by
  decide

/-- Digit characters are not the plus sign. -/
theorem hexchar_ne_plus : ∀ d, d < 16 → hex_digit_char d ≠ '+' := by
  decide

/-- Decimal digit parsing inverts the digit rendering. -/
theorem digit_val_dec_hexchar : ∀ d, d < 10 →
    digit_val_dec (hex_digit_char d) = some d := by
  decide

/-- Hexadecimal digit parsing inverts the digit rendering. -/
theorem digit_val_hex_hexchar : ∀ d, d < 16 →
    digit_val_hex (hex_digit_char d) = some d := by
  decide

/-- Every character of a base-`b` rendering (for `b ≤ 16`) is a digit
character for some value below 16. -/
theorem render_nat_mem (b a : Nat) (hb : 1 < b) (hb16 : b ≤ 16) :
    ∀ c ∈ render_nat b a, ∃ d, d < b ∧ c = hex_digit_char d := by
  intro c hc
  unfold render_nat at hc
  by_cases h0 : a = 0
  · subst h0
    simp at hc
    exact ⟨0, by omega, by rw [hc]; decide⟩
  · rw [if_neg h0] at hc
    obtain ⟨d, hd, hdc⟩ := List.mem_map.mp hc
    have hdb : d < b := Nat.digits_lt_base hb (List.mem_reverse.mp hd)
    exact ⟨d, hdb, hdc.symm⟩

/-- Renderings are never empty. -/
theorem render_nat_ne_nil (b a : Nat) : render_nat b a ≠ [] := by
  unfold render_nat
  by_cases h0 : a = 0
  · simp [h0]
  · rw [if_neg h0]
    simp only [ne_eq, List.map_eq_nil_iff, List.reverse_eq_nil_iff]
    exact Nat.digits_ne_nil_iff_ne_zero.mpr h0

/-- Checked digit accumulation over rendered digit characters recomposes
the digit list's value on top of the accumulator. -/
theorem foldl_digits_roundtrip (b : Nat) (dv : Char → Option Nat) (hb : 2 ≤ b)
    (hdv : ∀ d, d < b → dv (hex_digit_char d) = some d)
    (l : List Nat) (hl : ∀ d ∈ l, d < b) :
    ∀ v : Nat, v * b ^ l.length + Nat.ofDigits b l.reverse < 2 ^ 32 →
    List.foldl (parse_nat_step b dv) (some v) (l.map hex_digit_char) =
      some (v * b ^ l.length + Nat.ofDigits b l.reverse) := by
  induction l with
  | nil =>
    intro v _
    simp [Nat.ofDigits]
  | cons d t ih =>
    intro v hbound
    have hd : d < b := hl d (List.mem_cons_self d t)
    have hkey : v * b ^ (d :: t).length + Nat.ofDigits b (d :: t).reverse =
        (v * b + d) * b ^ t.length + Nat.ofDigits b t.reverse := by
      simp only [List.length_cons, List.reverse_cons, Nat.ofDigits_append,
        List.length_reverse, Nat.ofDigits_singleton]
      ring
    have hpow : 1 ≤ b ^ t.length := Nat.one_le_pow _ _ (by omega)
    have hstep : v * b + d < 2 ^ 32 := by
      have h1 : v * b + d ≤ (v * b + d) * b ^ t.length :=
        Nat.le_mul_of_pos_right _ (by omega)
      have h2 : (v * b + d) * b ^ t.length ≤
          (v * b + d) * b ^ t.length + Nat.ofDigits b t.reverse := Nat.le_add_right _ _
      rw [hkey] at hbound
      omega
    rw [List.map_cons, List.foldl_cons]
    have hstepval : parse_nat_step b dv (some v) (hex_digit_char d) = some (v * b + d) := by
      unfold parse_nat_step
      rw [hdv d hd]
      simp only [if_pos hstep]
    rw [hstepval, hkey]
    apply ih (fun x hx => hl x (List.mem_cons_of_mem d hx))
    rw [hkey] at hbound
    exact hbound

/-- Rust `u32` radix parsing inverts the base-`b` rendering for values
below `2^32`. -/
theorem parse_u32_render (b : Nat) (dv : Char → Option Nat) (hb : 2 ≤ b)
    (hb16 : b ≤ 16) (hdv : ∀ d, d < b → dv (hex_digit_char d) = some d)
    (a : Nat) (ha : a < 2 ^ 32) :
    parse_u32_radix b dv (render_nat b a) = some a := by
  unfold parse_u32_radix render_nat
  by_cases h0 : a = 0
  · subst h0
    have h01 : ('0' : Char) = hex_digit_char 0 := by decide
    have hne : ¬ (('0' : Char) = '+') := by decide
    have hstep : parse_nat_step b dv (some 0) '0' = some 0 := by
      unfold parse_nat_step
      rw [h01, hdv 0 (by omega)]
      simp
    simp [hne, hstep]
  · rw [if_neg h0]
    have hlrev : ((Nat.digits b a).reverse).reverse = Nat.digits b a :=
      List.reverse_reverse _
    obtain ⟨d0, dtail, hds⟩ : ∃ d0 dtail, (Nat.digits b a).reverse = d0 :: dtail := by
      cases hcase : (Nat.digits b a).reverse with
      | nil =>
        exfalso
        have hne2 := (Nat.digits_ne_nil_iff_ne_zero (b := b)).mpr h0
        rw [← hlrev, hcase] at hne2
        exact hne2 rfl
      | cons x t => exact ⟨x, t, rfl⟩
    rw [hds]
    have hd0 : d0 < b := by
      refine Nat.digits_lt_base (m := a) (by omega) ?_
      rw [← hlrev, hds]
      exact List.mem_reverse.mpr (List.mem_cons_self d0 dtail)
    have hall : ∀ x ∈ d0 :: dtail, x < b := by
      intro x hx
      refine Nat.digits_lt_base (m := a) (by omega) ?_
      rw [← hlrev, hds]
      exact List.mem_reverse.mpr hx
    simp only [List.map_cons]
    rw [if_neg (hexchar_ne_plus d0 (by omega))]
    rw [if_neg (by simp)]
    have hfold := foldl_digits_roundtrip b dv hb hdv (d0 :: dtail) hall 0
      (by rw [← hds, hlrev, Nat.ofDigits_digits]; simpa using ha)
    rw [List.map_cons] at hfold
    rw [hfold, ← hds, hlrev, Nat.ofDigits_digits]
    simp

/-- Reduction of `parse_device_and_address` on a catalog symbol followed
by a whitespace-free, non-alphabetic-leading digit tail: the symbol is
split off exactly and the tail parsed in the device's radix. -/
theorem parse_symbol_digits_reduction (cat : List Device) (d : Device)
    (ds : List Char)
    (hfind : device_by_symbol cat d.symbol = some d)
    (hsymne : d.symbol ≠ [])
    (hsym : ∀ c ∈ d.symbol, is_ascii_alpha c = true ∧ ascii_upper c = c)
    (hdigok : ∀ c ∈ ds, is_ws c = false ∧ ascii_upper c = c)
    (hdigne : ds ≠ [])
    (hhead : is_ascii_alpha (ds.headD '0') = false) :
    parse_device_and_address cat (d.symbol ++ ds) =
      (match (match d.base with
        | .Decimal => parse_u32_radix 10 digit_val_dec ds
        | .Hexadecimal => parse_u32_radix 16 digit_val_hex ds) with
       | none => .error "invalid numeric address"
       | some addr =>
         if 0xFFFFFF < addr then .error "address out of range (max 0xFFFFFF)"
         else .ok (d, addr)) := by
  unfold parse_device_and_address
  have hsymalpha : ∀ c ∈ d.symbol, is_ascii_alpha c = true := fun c hc => (hsym c hc).1
  have hnows : ∀ c ∈ d.symbol ++ ds, is_ws c = false := by
    intro c hc
    rcases List.mem_append.mp hc with h | h
    · exact is_ws_false_of_alpha c (hsymalpha c h)
    · exact (hdigok c h).1
  rw [trimChars_eq_self _ hnows]
  rw [if_neg (by simp [hsymne])]
  have hmap : (d.symbol ++ ds).map ascii_upper = d.symbol ++ ds := by
    rw [List.map_append, map_eq_self_of _ _ (fun c hc => (hsym c hc).2),
      map_eq_self_of _ _ (fun c hc => (hdigok c hc).2)]
  rw [hmap]
  obtain ⟨c0, rest, rfl⟩ : ∃ c0 rest, ds = c0 :: rest := by
    cases ds with
    | nil => exact absurd rfl hdigne
    | cons x t => exact ⟨x, t, rfl⟩
  have hhead0 : is_ascii_alpha c0 = false := by simpa using hhead
  have htake : (d.symbol ++ c0 :: rest).takeWhile is_ascii_alpha = d.symbol := by
    rw [takeWhile_append_all _ _ _ hsymalpha]
    simp [List.takeWhile_cons, hhead0]
  have hlen0 : ¬ (d.symbol.length = 0) := by
    simp [List.length_eq_zero, hsymne]
  simp only [htake, hlen0, if_false, List.take_left, List.drop_left,
    trimChars_eq_self _ (fun c hc => (hdigok c hc).1), hfind,
    reduceCtorEq, ite_false]

/-- Rendered digit tails are whitespace-free and fixed by uppercasing. -/
theorem render_tail_ok (b a : Nat) (hb : 1 < b) (hb16 : b ≤ 16) :
    ∀ c ∈ render_nat b a, is_ws c = false ∧ ascii_upper c = c := by
  intro c hc
  obtain ⟨dd, hdd, rfl⟩ := render_nat_mem b a hb hb16 c hc
  exact ⟨hexchar_not_ws dd (by omega), hexchar_upper_fixed dd (by omega)⟩


/-- Decimal renderings never start with an alphabetic character. -/
theorem render_dec_head_not_alpha (a : Nat) :
    is_ascii_alpha ((render_nat 10 a).headD '0') = false := by
  cases hr : render_nat 10 a with
  | nil => exact absurd hr (render_nat_ne_nil 10 a)
  | cons c0 t =>
    have hc0 : c0 ∈ render_nat 10 a := by
      rw [hr]
      exact List.mem_cons_self c0 t
    obtain ⟨dd, hdd, hceq⟩ := render_nat_mem 10 a (by omega) (by omega) c0 hc0
    simpa [hceq] using hexchar_dec_not_alpha dd hdd

/-- C6 (amended): the address-format round-trip holds for every
decimal-radix catalog device at every in-range address, and for every
hexadecimal-radix device whose rendered address starts with a decimal
digit; every successful parse yields an address within the 24-bit range,
and a decimal rendering of an address above `0xFFFFFF` (below `2^32`) is
rejected with the range protocol error. -/
theorem parse_address_roundtrip_amended :
    (∀ (cat : List Device) (d : Device) (a : Nat),
      device_by_symbol cat d.symbol = some d → d.symbol ≠ [] →
      (∀ c ∈ d.symbol, is_ascii_alpha c = true ∧ ascii_upper c = c) →
      d.base = .Decimal → a ≤ 0xFFFFFF →
      parse_device_and_address cat (d.symbol ++ render_address d.base a) =
        .ok (d, a)) ∧
    (∀ (cat : List Device) (d : Device) (a : Nat),
      device_by_symbol cat d.symbol = some d → d.symbol ≠ [] →
      (∀ c ∈ d.symbol, is_ascii_alpha c = true ∧ ascii_upper c = c) →
      d.base = .Hexadecimal → a ≤ 0xFFFFFF →
      is_ascii_alpha ((render_nat 16 a).headD '0') = false →
      parse_device_and_address cat (d.symbol ++ render_address d.base a) =
        .ok (d, a)) ∧
    (∀ (cat : List Device) (s : List Char) (d : Device) (a : Nat),
      parse_device_and_address cat s = .ok (d, a) → a ≤ 0xFFFFFF) ∧
    (∀ (cat : List Device) (d : Device) (a : Nat),
      device_by_symbol cat d.symbol = some d → d.symbol ≠ [] →
      (∀ c ∈ d.symbol, is_ascii_alpha c = true ∧ ascii_upper c = c) →
      d.base = .Decimal → 0xFFFFFF < a → a < 2 ^ 32 →
      parse_device_and_address cat (d.symbol ++ render_address d.base a) =
        .error "address out of range (max 0xFFFFFF)") := by
  refine ⟨?_, ?_, ?_, ?_⟩
  · intro cat d a hfind hne hsym hbase ha
    rw [hbase]
    simp only [render_address]
    rw [parse_symbol_digits_reduction cat d (render_nat 10 a) hfind hne hsym
      (render_tail_ok 10 a (by omega) (by omega)) (render_nat_ne_nil 10 a)
      (render_dec_head_not_alpha a)]
    simp only [hbase, render_address]
    rw [parse_u32_render 10 digit_val_dec (by omega) (by omega)
      digit_val_dec_hexchar a (by omega)]
    simp only [if_neg (show ¬ (0xFFFFFF < a) from by omega)]
  · intro cat d a hfind hne hsym hbase ha hhead
    rw [hbase]
    simp only [render_address]
    rw [parse_symbol_digits_reduction cat d (render_nat 16 a) hfind hne hsym
      (render_tail_ok 16 a (by omega) (by omega)) (render_nat_ne_nil 16 a)
      hhead]
    simp only [hbase, render_address]
    rw [parse_u32_render 16 digit_val_hex (by omega) (by omega)
      digit_val_hex_hexchar a (by omega)]
    simp only [if_neg (show ¬ (0xFFFFFF < a) from by omega)]
  · intro cat s d a h
    simp only [parse_device_and_address] at h
    repeat' split at h
    all_goals try (simp only [reduceCtorEq] at h)
    have h2 := Except.ok.inj h
    rw [Prod.mk.injEq] at h2
    have h3 := h2.2
    omega
  · intro cat d a hfind hne hsym hbase ha hlt
    rw [hbase]
    simp only [render_address]
    rw [parse_symbol_digits_reduction cat d (render_nat 10 a) hfind hne hsym
      (render_tail_ok 10 a (by omega) (by omega)) (render_nat_ne_nil 10 a)
      (render_dec_head_not_alpha a)]
    simp only [hbase, render_address]
    rw [parse_u32_render 10 digit_val_dec (by omega) (by omega)
      digit_val_dec_hexchar a hlt]
    simp only [if_pos (show 0xFFFFFF < a from ha)]

/-- Witness for C6 (amended): the decimal round-trip at `D` and address 7
in the modelled catalog. -/
theorem parse_address_roundtrip_amended_witness :
    parse_device_and_address demoCatalog
        ((⟨[Char.ofNat 68], .Word, .Decimal, 0xA8, [.Q, .R]⟩ : Device).symbol ++
          render_address NumberBase.Decimal 7) =
      .ok (⟨[Char.ofNat 68], .Word, .Decimal, 0xA8, [.Q, .R]⟩, 7) :=
  parse_address_roundtrip_amended.1 demoCatalog
    ⟨[Char.ofNat 68], .Word, .Decimal, 0xA8, [.Q, .R]⟩ 7
    (by decide) (by decide) (by decide) rfl (by decide)

/-- C6 counterexample: for the hexadecimal-radix device `W` of the
modelled catalog and the in-range address 10, the rendered string is
`WA`, whose parse fails (the `A` is consumed as a symbol letter), so the
round-trip law is violated as stated. -/
theorem parse_address_roundtrip_counterexample :
    render_address NumberBase.Hexadecimal 10 = [Char.ofNat 65] ∧
    (device_by_symbol demoCatalog [Char.ofNat 87]).isSome = true ∧
    (10 : Nat) ≤ 0xFFFFFF ∧
    parse_device_and_address demoCatalog
        ([Char.ofNat 87] ++ render_address NumberBase.Hexadecimal 10) =
      .error "missing numeric address in device string" := by
  have hdig : Nat.digits 16 10 = [10] := by
    rw [Nat.digits_def' (by norm_num : (1 : Nat) < 16) (by norm_num : (0 : Nat) < 10)]
    norm_num
  have hrender : render_address NumberBase.Hexadecimal 10 = [Char.ofNat 65] := by
    simp only [render_address, render_nat, hdig]
    decide
  refine ⟨hrender, rfl, by norm_num, ?_⟩
  rw [hrender]
  rfl

/-- Two-byte little-endian truncation written by `write_n_bytes`. -/
theorem write_n_bytes_two (v : Nat) :
    write_n_bytes 2 v true = [v % 256, v / 256 % 256] := by
  simp [write_n_bytes, List.range_succ]

/-- C3 counterexample: a `count` value of 0x12345 does not fit the
2-byte `count` field of `read_words`, yet `build_request` succeeds,
writing the low bytes 0x45 0x23. -/
theorem fixed_width_out_of_range_counterexample :
    build_request demoCatalog readWordsSpec
        (Json.obj [("start_addr", Json.num 0), ("device_code", Json.num 0xA8),
                   ("count", Json.num 0x12345)]) none =
      .ok [0x01, 0x04, 0x00, 0x00, 0x00, 0x00, 0x00, 0xA8, 0x45, 0x23] ∧
    (0xFFFF : Nat) < 0x12345 := ⟨rfl, by norm_num⟩

/-- C3 (amended): a fixed-width integer request field whose parameter
value exceeds the field's byte width is not rejected; `write_n_bytes`
silently keeps the least-significant bytes, and `build_request` succeeds.
Only word-array items are range-checked (rejected when above `u16`). -/
theorem fixed_width_truncates :
    (∀ v : Nat, write_fixed_bytes_field readWordsSpec
        ⟨"count", .FixedBytes 2 true⟩
        (Json.obj [("count", Json.num v)]) none =
      .ok [v % 256, v / 256 % 256]) ∧
    (∀ v : Nat, build_request demoCatalog readWordsSpec
        (Json.obj [("start_addr", Json.num 0), ("device_code", Json.num 0xA8),
                   ("count", Json.num v)]) none =
      .ok [0x01, 0x04, 0x00, 0x00, 0x00, 0x00, 0x00, 0xA8,
           v % 256, v / 256 % 256]) ∧
    write_words_field ⟨"data", .Words true⟩
        (Json.obj [("data", Json.arr [Json.num 0x10000])]) =
      .error "word array item out of range for u16" := by
  refine ⟨?_, ?_, rfl⟩
  · intro v
    simp [write_fixed_bytes_field, get_num_field, effective_fixed, Json.getKey,
      Json.as_u64, List.lookup, write_n_bytes_two, Except.bind]
    rfl
  · intro v
    simp [build_request, write_request_fields, readWordsSpec,
      check_block_device_codes, validate_block_limits, Json.getKey,
      Json.as_u64, List.lookup, get_num_field, write_fixed_bytes_field,
      effective_fixed, validate_code_for_family, device_by_code, demoCatalog,
      resolve_subcommand, write_n_bytes, List.range_succ, List.foldlM,
      Except.bind]
    rfl

/-- C4 counterexample: `read_words` is a word-family command and `M`
(code 0x90) is a bit-category device of the catalog, yet `build_request`
rejects the bundle with a family-mismatch error instead of accepting it. -/
theorem word_family_bit_device_counterexample :
    readWordsSpec.device_family = .Word ∧
    device_by_code demoCatalog 0x90 =
      some ⟨[Char.ofNat 77], .Bit, .Decimal, 0x90, [.Q, .R]⟩ ∧
    build_request demoCatalog readWordsSpec
        (Json.obj [("start_addr", Json.num 0), ("device_code", Json.num 0x90),
                   ("count", Json.num 1)]) none =
      .error "command requires a word device" := ⟨rfl, rfl, rfl⟩

/-- C4 (amended): a word-family command rejects a device code that
resolves to a bit-category device with a family-mismatch protocol error;
it accepts codes resolving to word- or double-word-category devices. -/
theorem word_family_rejects_bit_devices (cat : List Device) (code : Nat)
    (dev : Device) (hcode : code ≤ 255)
    (hfind : device_by_code cat code = some dev) :
    validate_code_for_family cat code .Word =
      (if dev.category = .Bit then .error "command requires a word device"
       else .ok ()) := by
  unfold validate_code_for_family
  rw [if_neg (by omega), hfind]
  cases hcat : dev.category <;> simp [hcat]

/-- Witness for C4 (amended): the bit device `M` (code 0x90) of the
modelled catalog fails the word-family check. -/
theorem word_family_rejects_bit_devices_witness :
    validate_code_for_family demoCatalog 0x90 .Word =
      .error "command requires a word device" := by
  have h := word_family_rejects_bit_devices demoCatalog 0x90
    ⟨[Char.ofNat 77], .Bit, .Decimal, 0x90, [.Q, .R]⟩ (by decide) (by decide)
  simpa using h

/-- C10: device-family validation only applies to resolvable codes: a
code of at most 255 that maps to no catalog device passes the check for
every family, a code above 255 is rejected with a protocol error, and
`build_request` accepts a bundle whose `device_code` is unresolvable. -/
theorem family_check_only_for_resolved_codes :
    (∀ (cat : List Device) (code : Nat) (family : DeviceFamily),
      code ≤ 255 → device_by_code cat code = none →
      validate_code_for_family cat code family = .ok ()) ∧
    (∀ (cat : List Device) (code : Nat) (family : DeviceFamily),
      255 < code →
      validate_code_for_family cat code family = .error "device code out of range") ∧
    device_by_code demoCatalog 0x42 = none ∧
    build_request demoCatalog readWordsSpec
        (Json.obj [("start_addr", Json.num 0), ("device_code", Json.num 0x42),
                   ("count", Json.num 1)]) none =
      .ok [0x01, 0x04, 0x00, 0x00, 0x00, 0x00, 0x00, 0x42, 0x01, 0x00] := by
  refine ⟨?_, ?_, rfl, rfl⟩
  · intro cat code family hle hnone
    unfold validate_code_for_family
    rw [if_neg (by omega), hnone]
  · intro cat code family hgt
    unfold validate_code_for_family
    rw [if_pos (by omega)]

/-- Witness for C10 at the unresolvable code 0x42 and the word family. -/
theorem family_check_only_for_resolved_codes_witness :
    validate_code_for_family demoCatalog 0x42 .Word = .ok () ∧
    validate_code_for_family demoCatalog 300 .Word =
      .error "device code out of range" :=
  ⟨family_check_only_for_resolved_codes.1 demoCatalog 0x42 .Word
      (by decide) (by rfl),
   family_check_only_for_resolved_codes.2.1 demoCatalog 300 .Word (by decide)⟩

/-- Keys after a map insert are the existing keys or the inserted one. -/
theorem mapInsert_keys (m : List (String × Json)) (k : String) (v : Json)
    (k' : String) (hk : k' ∈ (mapInsert m k v).map Prod.fst) :
    k' ∈ m.map Prod.fst ∨ k' = k := by
  unfold mapInsert at hk
  split at hk
  · rw [List.map_map] at hk
    obtain ⟨kv, hkvm, hkv⟩ := List.mem_map.mp hk
    by_cases hcase : kv.1 = k
    · right
      rw [← hkv]
      simp [Function.comp, hcase]
    · left
      rw [← hkv]
      simp only [Function.comp, hcase, if_false, ite_false]
      exact List.mem_map.mpr ⟨kv, hkvm, by simp [hcase]⟩
  · rw [List.map_append] at hk
    rcases List.mem_append.mp hk with h1 | h1
    · exact Or.inl h1
    · right
      simpa using h1

/-- Keys after a push into the result map. -/
theorem push_array_keys (m : List (String × Json)) (k : String) (v : Json)
    (k' : String)
    (hk : k' ∈ (push_array_in_result_map m k v).map Prod.fst) :
    k' ∈ m.map Prod.fst ∨ k' = k := by
  unfold push_array_in_result_map at hk
  split at hk
  · exact mapInsert_keys _ _ _ _ hk
  · exact mapInsert_keys _ _ _ _ hk

/-- The bit-blocks synthesis adds at most the key `bit_blocks`. -/
theorem maybe_push_bit_blocks_keys (cat : List Device) (params block : Json)
    (count : Nat) (out : List Json) (m : List (String × Json)) (k' : String)
    (hk : k' ∈ (maybe_push_bit_blocks cat params block count out m).map Prod.fst) :
    k' ∈ m.map Prod.fst ∨ k' = "bit_blocks" := by
  unfold maybe_push_bit_blocks at hk
  repeat' split at hk
  all_goals first
    | exact Or.inl hk
    | exact push_array_keys _ _ _ _ hk

/-- The words-block loop adds at most the key `bit_blocks` to the result
map. -/
theorem parse_words_blocks_keys (cat : List Device) (le : Bool) (params : Json)
    (bytes : List Nat) :
    ∀ (blocks : List Json) (offset : Nat) (out : List Json)
      (m : List (String × Json)) (res : Nat × List Json × List (String × Json)),
      parse_words_blocks cat le params bytes blocks offset out m = .ok res →
      ∀ k' ∈ res.2.2.map Prod.fst, k' ∈ m.map Prod.fst ∨ k' = "bit_blocks" := by
  intro blocks
  induction blocks with
  | nil =>
    intro offset out m res h k' hk
    cases Except.ok.inj h
    exact Or.inl hk
  | cons block rest ih =>
    intro offset out m res h k' hk
    unfold parse_words_blocks at h
    split at h
    · exact absurd h (by simp)
    · split at h
      · exact absurd h (by simp)
      · rcases ih _ _ _ _ h k' hk with h1 | h1
        · exact maybe_push_bit_blocks_keys _ _ _ _ _ _ _ h1
        · exact Or.inr h1

/-- Keys produced by a words response entry. -/
theorem parse_block_words_entry_keys (cat : List Device) (name : String)
    (le : Bool) (params : Json) (bytes : List Nat) (offset : Nat)
    (m : List (String × Json)) (res : Nat × List (String × Json))
    (h : parse_block_words_entry cat name le params bytes offset m = .ok res) :
    ∀ k' ∈ res.2.map Prod.fst,
      k' ∈ m.map Prod.fst ∨ k' = name ∨ k' = "bit_blocks" := by
  unfold parse_block_words_entry at h
  split at h
  · exact absurd h (by simp)
  · rename_i r hr
    cases Except.ok.inj h
    intro k' hk
    rcases mapInsert_keys _ _ _ _ hk with h1 | h1
    · rcases parse_words_blocks_keys cat le params bytes _ _ _ _ _ hr k' h1 with h2 | h2
      · exact Or.inl h2
      · exact Or.inr (Or.inr h2)
    · exact Or.inr (Or.inl h1)

/-- Keys produced by a packed-bits response entry. -/
theorem parse_block_bits_packed_entry_keys (name : String) (lsb_first : Bool)
    (params : Json) (bytes : List Nat) (offset : Nat)
    (m : List (String × Json)) (res : Nat × List (String × Json))
    (h : parse_block_bits_packed_entry name lsb_first params bytes offset m = .ok res) :
    ∀ k' ∈ res.2.map Prod.fst, k' ∈ m.map Prod.fst ∨ k' = name := by
  unfold parse_block_bits_packed_entry at h
  split at h
  · exact absurd h (by simp)
  · cases Except.ok.inj h
    intro k' hk
    exact mapInsert_keys _ _ _ _ hk

/-- Keys produced by a nibble response entry. -/
theorem parse_block_nibbles_entry_keys (name : String) (high_first : Bool)
    (params : Json) (bytes : List Nat) (offset : Nat)
    (m : List (String × Json)) (res : Nat × List (String × Json))
    (h : parse_block_nibbles_entry name high_first params bytes offset m = .ok res) :
    ∀ k' ∈ res.2.map Prod.fst, k' ∈ m.map Prod.fst ∨ k' = name := by
  unfold parse_block_nibbles_entry at h
  split at h
  · exact absurd h (by simp)
  · cases Except.ok.inj h
    intro k' hk
    exact mapInsert_keys _ _ _ _ hk

/-- Keys produced by an ascii-hex response entry. -/
theorem parse_ascii_hex_entry_keys (name : String) (bytes : List Nat)
    (offset : Nat) (m : List (String × Json)) (res : Nat × List (String × Json))
    (h : parse_ascii_hex_entry name bytes offset m = .ok res) :
    ∀ k' ∈ res.2.map Prod.fst, k' ∈ m.map Prod.fst ∨ k' = name := by
  unfold parse_ascii_hex_entry at h
  split at h
  · exact absurd h (by simp)
  · split at h
    · exact absurd h (by simp)
    · cases Except.ok.inj h
      intro k' hk
      exact mapInsert_keys _ _ _ _ hk

/-- Keys produced by one response directive: the entry name or
`bit_blocks`. -/
theorem run_response_entry_keys (cat : List Device) (params : Json)
    (bytes : List Nat) (e : ResponseEntry) (offset : Nat)
    (m : List (String × Json)) (res : Nat × List (String × Json))
    (h : run_response_entry cat params bytes e offset m = .ok res) :
    ∀ k' ∈ res.2.map Prod.fst,
      k' ∈ m.map Prod.fst ∨ k' = ResponseEntry.entryName e ∨ k' = "bit_blocks" := by
  cases e with
  | BlockWords name le =>
    exact parse_block_words_entry_keys cat name le params bytes offset m res h
  | BlockBitsPacked name lsb_first =>
    intro k' hk
    rcases parse_block_bits_packed_entry_keys name lsb_first params bytes
        offset m res h k' hk with h2 | h2
    · exact Or.inl h2
    · exact Or.inr (Or.inl h2)
  | BlockNibbles name high_first =>
    intro k' hk
    rcases parse_block_nibbles_entry_keys name high_first params bytes
        offset m res h k' hk with h2 | h2
    · exact Or.inl h2
    · exact Or.inr (Or.inl h2)
  | AsciiHex name =>
    intro k' hk
    rcases parse_ascii_hex_entry_keys name bytes offset m res h k' hk with h2 | h2
    · exact Or.inl h2
    · exact Or.inr (Or.inl h2)

/-- Keys produced by running the response entries: only entry names and
the synthesized `bit_blocks`. -/
theorem parse_response_entries_keys (cat : List Device) (params : Json)
    (bytes : List Nat) :
    ∀ (entries : List ResponseEntry) (offset : Nat) (m : List (String × Json))
      (res : Nat × List (String × Json)),
      parse_response_entries cat params bytes entries offset m = .ok res →
      ∀ k' ∈ res.2.map Prod.fst,
        k' ∈ m.map Prod.fst ∨ k' = "bit_blocks" ∨
          ∃ e ∈ entries, ResponseEntry.entryName e = k' := by
  intro entries
  induction entries with
  | nil =>
    intro offset m res h k' hk
    cases Except.ok.inj h
    exact Or.inl hk
  | cons e rest ih =>
    intro offset m res h k' hk
    unfold parse_response_entries at h
    split at h
    · exact absurd h (by simp)
    · rename_i r hr
      rcases ih _ _ _ h k' hk with h1 | h1 | h1
      · rcases run_response_entry_keys cat params bytes e offset m r hr k' h1
          with h2 | h2 | h2
        · exact Or.inl h2
        · exact Or.inr (Or.inr ⟨e, List.mem_cons_self _ _, h2.symm⟩)
        · exact Or.inr (Or.inl h2)
      · exact Or.inr (Or.inl h1)
      · obtain ⟨e2, he2, he2n⟩ := h1
        exact Or.inr (Or.inr ⟨e2, List.mem_cons_of_mem e he2, he2n⟩)

/-- A single-descriptor words block with count 1 decodes one word from
the first two bytes and runs the bit-blocks synthesis on it. -/
theorem parse_words_blocks_single (cat : List Device) (le : Bool) (params : Json)
    (b0 b1 : Nat) (rest : List Nat) (blk : Json)
    (hcount : read_block_count blk = .ok 1) :
    parse_words_blocks cat le params (b0 :: b1 :: rest) [blk] 0 [] [] =
      .ok (2, [Json.arr [Json.num (read_word (b0 :: b1 :: rest) 0 le)]],
           maybe_push_bit_blocks cat params blk 1
             [Json.arr [Json.num (read_word (b0 :: b1 :: rest) 0 le)]] []) := by
  unfold parse_words_blocks
  simp only [hcount]
  rw [if_neg (by simp)]
  norm_num [List.range_succ]
  unfold parse_words_blocks
  norm_num

/-- The synthesis on a count-1 bit-category descriptor with an in-range
word appends the 16 bits under `bit_blocks`. -/
theorem maybe_push_bit_blocks_bit (cat : List Device) (params : Json)
    (dc : Nat) (dev : Device) (w : Nat)
    (hdc : dc ≤ 255) (hdev : device_by_code cat dc = some dev)
    (hbit : dev.category = .Bit) (hw : w ≤ 0xFFFF) :
    maybe_push_bit_blocks cat params
        (Json.obj [("device_code", Json.num dc), ("count", Json.num 1)]) 1
        [Json.arr [Json.num w]] [] =
      [("bit_blocks", Json.arr [Json.arr (bits16_lsb w)])] := by
  unfold maybe_push_bit_blocks
  have hl1 : Json.getKey
      (Json.obj [("device_code", Json.num dc), ("count", Json.num 1)])
      "device_code" = some (Json.num dc) := by
    simp [Json.getKey, List.lookup]
  simp only [hl1, Json.as_u64, Option.bind, Option.orElse]
  rw [if_pos hdc, hdev]
  simp [hbit, hw, push_array_in_result_map, mapInsert, List.lookup]

/-- The synthesis never fires for a word-category descriptor. -/
theorem maybe_push_bit_blocks_word (cat : List Device) (params : Json)
    (dc : Nat) (dev : Device) (out : List Json) (m : List (String × Json))
    (count : Nat)
    (hdc : dc ≤ 255) (hdev : device_by_code cat dc = some dev)
    (hword : dev.category = .Word) :
    maybe_push_bit_blocks cat params
        (Json.obj [("device_code", Json.num dc), ("count", Json.num 1)]) count
        out m = m := by
  unfold maybe_push_bit_blocks
  have hl1 : Json.getKey
      (Json.obj [("device_code", Json.num dc), ("count", Json.num 1)])
      "device_code" = some (Json.num dc) := by
    simp [Json.getKey, List.lookup]
  simp only [hl1, Json.as_u64, Option.bind, Option.orElse]
  rw [if_pos hdc, hdev]
  simp [hword]

/-- One decoded word from two response bytes fits a `u16`. -/
theorem read_word_le (b0 b1 : Nat) (rest : List Nat) (le : Bool)
    (hb0 : b0 ≤ 255) (hb1 : b1 ≤ 255) :
    read_word (b0 :: b1 :: rest) 0 le ≤ 0xFFFF := by
  unfold read_word
  cases le <;> simp <;> omega

/-- C1: the parser injects at most the key `bit_blocks` beyond the
schema-declared response entry names; a words-block descriptor whose
device code resolves to a bit-category device with count exactly 1 causes
a `bit_blocks` array holding the 16 bits of the decoded word (LSB-first)
to be synthesized; and the synthesis never fires for a word-category
device. -/
theorem bit_blocks_synthesis :
    (∀ (cat : List Device) (spec : CommandSpec) (params : Json)
      (bytes : List Nat) (m : List (String × Json)),
      parse_response cat spec params bytes = .ok (Json.obj m) →
      ∀ kv ∈ m, kv.1 = "bit_blocks" ∨
        ∃ e ∈ spec.response_entries, ResponseEntry.entryName e = kv.1) ∧
    (∀ (cat : List Device) (spec : CommandSpec) (name : String) (le : Bool)
      (dc b0 b1 : Nat) (rest : List Nat) (dev : Device),
      spec.response_entries = [.BlockWords name le] →
      name ≠ "bit_blocks" → dc ≤ 255 → device_by_code cat dc = some dev →
      dev.category = .Bit → b0 ≤ 255 → b1 ≤ 255 →
      parse_response cat spec
          (Json.obj [(name, Json.arr [Json.obj [("device_code", Json.num dc),
            ("count", Json.num 1)]])])
          (b0 :: b1 :: rest) =
        .ok (Json.obj
          [("bit_blocks", Json.arr [Json.arr (bits16_lsb
              (read_word (b0 :: b1 :: rest) 0 le))]),
           (name, Json.arr [Json.arr [Json.num
              (read_word (b0 :: b1 :: rest) 0 le)]])])) ∧
    (∀ (cat : List Device) (spec : CommandSpec) (name : String) (le : Bool)
      (dc b0 b1 : Nat) (rest : List Nat) (dev : Device),
      spec.response_entries = [.BlockWords name le] →
      dc ≤ 255 → device_by_code cat dc = some dev →
      dev.category = .Word →
      parse_response cat spec
          (Json.obj [(name, Json.arr [Json.obj [("device_code", Json.num dc),
            ("count", Json.num 1)]])])
          (b0 :: b1 :: rest) =
        .ok (Json.obj
          [(name, Json.arr [Json.arr [Json.num
              (read_word (b0 :: b1 :: rest) 0 le)]])])) := by
  refine ⟨?_, ?_, ?_⟩
  · intro cat spec params bytes m h kv hkv
    unfold parse_response at h
    split at h
    · exact absurd h (by simp)
    · rename_i r hr
      have hm : r.2 = m := by
        have h2 := Except.ok.inj h
        simpa using h2
      have hkey := parse_response_entries_keys cat params bytes
        spec.response_entries 0 [] r hr kv.1
        (by rw [hm]; exact List.mem_map.mpr ⟨kv, hkv, rfl⟩)
      rcases hkey with h1 | h1 | h1
      · simp at h1
      · exact Or.inl h1
      · obtain ⟨e, he, hen⟩ := h1
        exact Or.inr ⟨e, he, hen⟩
  · intro cat spec name le dc b0 b1 rest dev hentries hname hdc hdev hbit hb0 hb1
    unfold parse_response
    rw [hentries]
    unfold parse_response_entries run_response_entry parse_block_words_entry
    dsimp only
    have hcache : cached_arrays
        (Json.obj [(name, Json.arr [Json.obj [("device_code", Json.num dc),
          ("count", Json.num 1)]])]) name =
        [Json.obj [("device_code", Json.num dc), ("count", Json.num 1)]] := by
      simp [cached_arrays, Json.getKey, Json.as_array, List.lookup]
    rw [hcache]
    have hcount : read_block_count
        (Json.obj [("device_code", Json.num dc), ("count", Json.num 1)]) = .ok 1 := by
      simp +decide [read_block_count, Json.getKey, Json.as_u64, List.lookup]
    rw [parse_words_blocks_single cat le _ b0 b1 rest _ hcount]
    rw [maybe_push_bit_blocks_bit cat _ dc dev _ hdc hdev hbit
      (read_word_le b0 b1 rest le hb0 hb1)]
    simp [mapInsert, Ne.symm hname, parse_response_entries]
  · intro cat spec name le dc b0 b1 rest dev hentries hdc hdev hword
    unfold parse_response
    rw [hentries]
    unfold parse_response_entries run_response_entry parse_block_words_entry
    dsimp only
    have hcache : cached_arrays
        (Json.obj [(name, Json.arr [Json.obj [("device_code", Json.num dc),
          ("count", Json.num 1)]])]) name =
        [Json.obj [("device_code", Json.num dc), ("count", Json.num 1)]] := by
      simp [cached_arrays, Json.getKey, Json.as_array, List.lookup]
    rw [hcache]
    have hcount : read_block_count
        (Json.obj [("device_code", Json.num dc), ("count", Json.num 1)]) = .ok 1 := by
      simp +decide [read_block_count, Json.getKey, Json.as_u64, List.lookup]
    rw [parse_words_blocks_single cat le _ b0 b1 rest _ hcount]
    rw [maybe_push_bit_blocks_word cat _ dc dev _ _ 1 hdc hdev hword]
    simp [mapInsert, parse_response_entries]

/-- Witness for C1: the spec's seed scenario 1 — reading one word of the
bit device `M` with response bytes 0x34 0x12 yields `data_blocks` with
word 0x1234 and a synthesized `bit_blocks` with its 16 bits; LSB first. -/
theorem bit_blocks_synthesis_witness :
    parse_response demoCatalog readWordsSpec
        (Json.obj [("data_blocks", Json.arr [Json.obj
          [("device_code", Json.num 0x90), ("count", Json.num 1)]])])
        [0x34, 0x12] =
      .ok (Json.obj
        [("bit_blocks", Json.arr [Json.arr (bits16_lsb 0x1234)]),
         ("data_blocks", Json.arr [Json.arr [Json.num 0x1234]])]) := by
  have h := bit_blocks_synthesis.2.1 demoCatalog readWordsSpec "data_blocks" true
    0x90 0x34 0x12 [] ⟨[Char.ofNat 77], .Bit, .Decimal, 0x90, [.Q, .R]⟩
    rfl (by decide) (by decide) (by decide) rfl (by decide) (by decide)
  simpa using h

end Melsec
